import Mathlib

/-!
# atlas: typed field storage, structured grids, partitioner factory

A shallow embedding of

* `src/atlas/Field.cpp` (`Field::Field`, `Field::data<T>`, `FieldT<T>::data_type`,
  `FieldT<T>::halo_exchange`),
* `src/atlas/grid/Structured.h` (the inline accessors of `Structured`),
* `src/atlas/grid/partitioners/Partitioner.h` (`PartitionerFactory`, `PartitionerBuilder<T>`),

followed by the properties proved about them.

Conventions of the embedding

* A C++ exception is the `Except.error` branch of the result, carrying an `Exn`.
* A member function returning a non-const reference (`std::vector<T>& data()`) is embedded in
  state-passing form: it takes the caller's action on the referenced object (`use`, mapping the
  current contents to the new contents and a result) and returns the object after the action
  together with the result.  Reading is `use = fun v => (v, v)`, assigning `w` is
  `use = fun _ => (w, ())`.
* `size_t` is `Nat`, `long`/`int` are `Int`; the code translated from the sources does no
  arithmetic on them (the one conversion, in `nlon`, is taken modulo `2 ^ 64`).
* `double` in `Structured` is a type parameter `D` with the operations the code uses; where the
  arithmetic itself matters `D` is `Double`, a bit-level model of IEEE 754 binary64 with the
  default rounding.  Which NaN an invalid operation returns is not fixed by the standard:
  statements about a NaN result use `isNaN`.
* An out-of-range `operator[]` (undefined behaviour in C++) is `none`.
-/

namespace atlas

/-! ## Field storage (`Field.cpp`) -/

/-- Exceptions raised by the embedded code. -/
inductive Exn where
  /-- The exception `std::bad_cast`, thrown by a failing `dynamic_cast` to a reference type. -/
  | bad_cast
  /-- The exception `std::runtime_error(what)`. -/
  | runtime_error (what : String)
  /-- The failure of `PartitionerFactory::build` for a key nobody registered, as the spec
  describes it: an error identifying the key. -/
  | unknown_partitioner (name : String)
  /-- The failure of `Structured::setup` on input violating the invariants, as the spec describes
  it. -/
  | bad_grid
  deriving DecidableEq, Repr

/-- The three template arguments `T` for which `Field.cpp` specialises `Field::data<T>`,
`FieldT<T>::data_type` and `FieldT<T>::halo_exchange`. -/
inductive CType where
  | int
  | float
  | double
  deriving DecidableEq, Repr

/-- One `float` cell of a buffer, kept as its 32-bit pattern (no arithmetic is done on it). -/
structure CFloat where
  bits : Nat
  deriving DecidableEq, Repr

/-- One `double` cell of a buffer, kept as its 64-bit pattern (no arithmetic is done on it). -/
structure CDouble where
  bits : Nat
  deriving DecidableEq, Repr

/-- The C++ element type denoted by a template argument. -/
@[reducible] def CType.elem : CType → Type
  | .int => Int
  | .float => CFloat
  | .double => CDouble

/-- The object `FunctionSpace&` a field refers to (an external collaborator): only its identity
matters here. -/
structure FunctionSpace where
  id : Nat
  deriving DecidableEq, Repr

/-- An object of class `FieldT<T>`: the members of the base class `Field` initialised by
`Field::Field` (`name_`, `nb_vars_`, `function_space_`) and the buffer `data_` of `FieldT<T>`
(a `std::vector<T>`, see `FieldT<T>::halo_exchange`). -/
structure FieldT (T : CType) where
  name_ : String
  nb_vars_ : Int
  function_space_ : FunctionSpace
  data_ : List T.elem

/-- A `Field&`: an object whose dynamic type is one of `FieldT<int>`, `FieldT<float>`,
`FieldT<double>`. -/
inductive Field where
  | of_int (this : FieldT .int)
  | of_float (this : FieldT .float)
  | of_double (this : FieldT .double)

/-- The dynamic type of a field, as the template argument of its class. -/
def Field.kind : Field → CType
  | .of_int _ => .int
  | .of_float _ => .float
  | .of_double _ => .double

/-- Modelled from the spec: `Field::name()` is declared in `Field.hpp` (not part of the sources);
the accessor returns the member `name_` set by `Field::Field`. -/
def Field.name : Field → String
  | .of_int t => t.name_
  | .of_float t => t.name_
  | .of_double t => t.name_

/-- Modelled from the spec: `Field::nb_vars()` (declared in `Field.hpp`) returns `nb_vars_`. -/
def Field.nb_vars : Field → Int
  | .of_int t => t.nb_vars_
  | .of_float t => t.nb_vars_
  | .of_double t => t.nb_vars_

/-- Modelled from the spec: `Field::function_space()` (declared in `Field.hpp`) returns the
reference `function_space_` bound by `Field::Field`. -/
def Field.function_space : Field → FunctionSpace
  | .of_int t => t.function_space_
  | .of_float t => t.function_space_
  | .of_double t => t.function_space_

/-- The specialisations `FieldT<int>::data_type`, `FieldT<float>::data_type`,
`FieldT<double>::data_type` (Field.cpp:59-64). -/
def FieldT.data_type : {T : CType} → FieldT T → String
  | .int, _ => "int32"
  | .float, _ => "real32"
  | .double, _ => "real64"

/-- The virtual call `Field::data_type()`, dispatched on the dynamic type. -/
def Field.data_type : Field → String
  | .of_int t => t.data_type
  | .of_float t => t.data_type
  | .of_double t => t.data_type

/-- Modelled from the spec: `FieldT<T>::data()` is declared in `Field.hpp` (not part of the
sources); it returns a reference to the buffer `data_`.  In state-passing form: the caller's
action `use` is run on `data_`, and the object afterwards holds what the action left there. -/
def FieldT.data {T : CType} {β : Type} (this : FieldT T) (use : List T.elem → List T.elem × β) :
    FieldT T × β :=
  ({ this with data_ := (use this.data_).1 }, (use this.data_).2)

/-- The cast `dynamic_cast< FieldT<int>& >(*this)`: the object itself when its dynamic type is
`FieldT<int>`, `std::bad_cast` otherwise. -/
def Field.dynamic_cast_int : Field → Except Exn (FieldT .int)
  | .of_int t => .ok t
  | _ => .error .bad_cast

/-- The cast `dynamic_cast< FieldT<float>& >(*this)`. -/
def Field.dynamic_cast_float : Field → Except Exn (FieldT .float)
  | .of_float t => .ok t
  | _ => .error .bad_cast

/-- The cast `dynamic_cast< FieldT<double>& >(*this)`. -/
def Field.dynamic_cast_double : Field → Except Exn (FieldT .double)
  | .of_double t => .ok t
  | _ => .error .bad_cast

/-- The specialisation `Field::data<int>()` (Field.cpp:17-29).  On success the caller's action has
been run on the buffer of the very object `*this`. -/
def Field.data_int {β : Type} (f : Field) (use : List Int → List Int × β) :
    Except Exn (Field × β) :=
  match f.dynamic_cast_int with
  | .ok t => .ok (.of_int (t.data use).1, (t.data use).2)
  | .error .bad_cast =>
      .error (.runtime_error
        ("Could not cast Field " ++ f.name ++ " with data_type " ++ f.data_type ++ " to int32"))
  | .error e => .error e

/-- The specialisation `Field::data<float>()` (Field.cpp:31-43). -/
def Field.data_float {β : Type} (f : Field) (use : List CFloat → List CFloat × β) :
    Except Exn (Field × β) :=
  match f.dynamic_cast_float with
  | .ok t => .ok (.of_float (t.data use).1, (t.data use).2)
  | .error .bad_cast =>
      .error (.runtime_error
        ("Could not cast Field " ++ f.name ++ " with data_type " ++ f.data_type ++ " to real32"))
  | .error e => .error e

/-- The specialisation `Field::data<double>()` (Field.cpp:45-57). -/
def Field.data_double {β : Type} (f : Field) (use : List CDouble → List CDouble × β) :
    Except Exn (Field × β) :=
  match f.dynamic_cast_double with
  | .ok t => .ok (.of_double (t.data use).1, (t.data use).2)
  | .error .bad_cast =>
      .error (.runtime_error
        ("Could not cast Field " ++ f.name ++ " with data_type " ++ f.data_type ++ " to real64"))
  | .error e => .error e

/-- The member template `Field::data<T>()`: selects the specialisation for `T`. -/
def Field.data {β : Type} : (T : CType) → Field → (List T.elem → List T.elem × β) →
    Except Exn (Field × β)
  | .int => Field.data_int
  | .float => Field.data_float
  | .double => Field.data_double

/-- The caller's action that only reads the referenced buffer. -/
def readAll {α : Type} : List α → List α × List α :=
  fun v => (v, v)

/-- The caller's action that assigns `w` to the referenced buffer. -/
def assign {α : Type} (w : List α) : List α → List α × Unit :=
  fun _ => (w, ())

/-- The buffer of a field when its dynamic type is `FieldT<T>`, `none` otherwise (an observation
used in statements; not a function of the source). -/
def Field.stored : (T : CType) → Field → Option (List T.elem)
  | .int, .of_int t => some t.data_
  | .float, .of_float t => some t.data_
  | .double, .of_double t => some t.data_
  | _, _ => none

/-- The tag the code writes for a requested kind: the literal closing the message of
`Field::data<T>`, which is also the value of `FieldT<T>::data_type`. -/
def CType.tag : CType → String
  | .int => "int32"
  | .float => "real32"
  | .double => "real64"

/-- One call `FunctionSpace::halo_exchange(field_data, size)` as received by a function space:
the receiver, the buffer the pointer `field_data` designates, and the length passed. -/
structure HaloRequest where
  receiver : FunctionSpace
  T : CType
  field_data : List T.elem
  size : Nat

/-- The cells of a buffer after an external routine wrote `new` through a pointer to its first
cell: a write through the pointer cannot change the number of cells. -/
def writeThrough {α : Type} (old new : List α) : List α :=
  new.take old.length ++ old.drop new.length

/-- The specialisations `FieldT<T>::halo_exchange()` (Field.cpp:66-71):
`function_space().halo_exchange(data_.data(), data_.size())`.
`FunctionSpace::halo_exchange` is an external collaborator: `exchange` gives the cell contents it
leaves behind, and `log` is the sequence of calls function spaces have received so far. -/
def FieldT.halo_exchange {T : CType}
    (exchange : (T : CType) → FunctionSpace → List T.elem → Nat → List T.elem)
    (this : FieldT T) (log : List HaloRequest) : FieldT T × List HaloRequest :=
  ({ this with
      data_ := writeThrough this.data_
        (exchange T this.function_space_ this.data_ this.data_.length) },
   log ++ [{ receiver := this.function_space_, T := T, field_data := this.data_,
             size := this.data_.length }])

/-- The virtual call `Field::halo_exchange()`, dispatched on the dynamic type. -/
def Field.halo_exchange
    (exchange : (T : CType) → FunctionSpace → List T.elem → Nat → List T.elem)
    (f : Field) (log : List HaloRequest) : Field × List HaloRequest :=
  match f with
  | .of_int t => (.of_int (t.halo_exchange exchange log).1, (t.halo_exchange exchange log).2)
  | .of_float t => (.of_float (t.halo_exchange exchange log).1, (t.halo_exchange exchange log).2)
  | .of_double t => (.of_double (t.halo_exchange exchange log).1, (t.halo_exchange exchange log).2)

/-! ## The type `double` (IEEE 754 binary64)

`Structured` computes longitudes in `double`.  `Double` is the binary64 format with the default
rounding (to nearest, ties to even): a value is its sign bit and its other 63 bits, and every
operation returns the double nearest to the exact result.  Magnitudes are counted in units of
`2 ^ (-1074)`, the smallest positive double, so that every finite double is a whole number of
units. -/

/-- A value of type `double`: the sign bit, and the remaining 63 bits (eleven bits of biased
exponent, then 52 bits of fraction) read as a number.  Magnitudes below `INF` are the finite
doubles, `INF` is infinity, and every larger magnitude is a NaN. -/
structure Double where
  sign : Bool
  mag : Nat
  deriving DecidableEq, Repr

namespace Double

/-- The magnitude bits of infinity, `0x7FF0000000000000`. -/
def INF : Nat := 2047 * 2 ^ 52

/-- The number of units of `2 ^ (-1074)` in the value one. -/
@[irreducible] def ONE : Nat := 2 ^ 1074

/-- Whether a double is a NaN. -/
def isNaN (x : Double) : Bool := decide (INF < x.mag)

/-- Whether a double is an infinity. -/
def isInf (x : Double) : Bool := decide (x.mag = INF)

/-- Whether a double is finite (`std::isfinite`). -/
def isFinite (x : Double) : Bool := decide (x.mag < INF)

/-- Whether a double is a zero of either sign. -/
def isZero (x : Double) : Bool := decide (x.mag = 0)

/-- The quiet NaN an invalid operation produces. -/
def nan : Double := ⟨false, INF + 2 ^ 51⟩

/-- The magnitude of a finite double in units of `2 ^ (-1074)`: the fraction `m % 2 ^ 52` alone
for a subnormal (biased exponent `m / 2 ^ 52 = 0`), and otherwise the fraction with its hidden
bit, scaled by the exponent. -/
def units (m : Nat) : Nat :=
  if m / 2 ^ 52 = 0 then m else (m % 2 ^ 52 + 2 ^ 52) * 2 ^ (m / 2 ^ 52 - 1)

/-- The integer nearest to `n / d`, the even one of two equally near. -/
def roundHalfEven (n d : Nat) : Nat :=
  if 2 * (n % d) < d then n / d
  else if d < 2 * (n % d) then n / d + 1
  else n / d + (n / d) % 2

/-- Halvings that bring `t` below `2 ^ 53`, at most `fuel` of them. -/
def shiftFrom : Nat → Nat → Nat
  | 0, _ => 0
  | fuel + 1, t => if t < 2 ^ 53 then 0 else shiftFrom fuel (t / 2) + 1

/-- The number of halvings that bring `t` below `2 ^ 53`: the exponent, above the smallest one,
of the doubles around `t` units. -/
def shift (t : Nat) : Nat := shiftFrom t t

/-- The magnitude bits of the double nearest to `n / d` units (ties to even); `INF` when that
lies beyond the largest finite double. -/
def roundMag (n d : Nat) : Nat :=
  min (shift (n / d) * 2 ^ 52 + roundHalfEven n (d * 2 ^ shift (n / d))) INF

/-- The value of a finite double as a signed number of units. -/
def toInt (x : Double) : Int :=
  if x.sign then -(units x.mag : Int) else (units x.mag : Int)

/-- Addition of doubles (`x + y`). -/
def add (x y : Double) : Double :=
  if x.isNaN || y.isNaN then nan
  else if x.isInf then (if y.isInf && (x.sign != y.sign) then nan else x)
  else if y.isInf then y
  else
    let s := x.toInt + y.toInt
    if s = 0 then ⟨x.sign && y.sign, 0⟩ else ⟨decide (s < 0), roundMag s.natAbs 1⟩

/-- Negation of a double (`-x`). -/
def neg (x : Double) : Double := ⟨!x.sign, x.mag⟩

/-- Subtraction of doubles (`x - y`). -/
def sub (x y : Double) : Double := add x (neg y)

/-- Multiplication of doubles (`x * y`). -/
def mul (x y : Double) : Double :=
  if x.isNaN || y.isNaN then nan
  else if x.isInf || y.isInf then
    (if x.isZero || y.isZero then nan else ⟨x.sign != y.sign, INF⟩)
  else ⟨x.sign != y.sign, roundMag (units x.mag * units y.mag) ONE⟩

/-- Division of doubles (`x / y`). -/
def div (x y : Double) : Double :=
  if x.isNaN || y.isNaN then nan
  else if x.isInf then (if y.isInf then nan else ⟨x.sign != y.sign, INF⟩)
  else if y.isInf then ⟨x.sign != y.sign, 0⟩
  else if y.isZero then (if x.isZero then nan else ⟨x.sign != y.sign, INF⟩)
  else ⟨x.sign != y.sign, roundMag (units x.mag * ONE) (units y.mag)⟩

/-- The conversion `static_cast<double>(n)` of a `size_t`. -/
def ofNat (n : Nat) : Double := ⟨false, roundMag (n * ONE) 1⟩

/-- The conversion `static_cast<double>(i)` of a `long`. -/
def ofInt (i : Int) : Double := ⟨decide (i < 0), roundMag (i.natAbs * ONE) 1⟩

/-- The bits of a double compared as a signed number: on the doubles that are not NaN this is the
order of their values, the two zeros counting as equal. -/
def key (x : Double) : Int := if x.sign then -(x.mag : Int) else (x.mag : Int)

/-- The comparison `x < y` of doubles. -/
def lt (x y : Double) : Bool := !x.isNaN && !y.isNaN && decide (x.key < y.key)

/-- The comparison `x == y` of doubles. -/
def eq (x y : Double) : Bool := !x.isNaN && !y.isNaN && decide (x.key = y.key)

/-- The key of the double nearest to `s` units (used in statements about `add`). -/
def sround (s : Int) : Int :=
  if s < 0 then -(roundMag s.natAbs 1 : Int) else (roundMag s.natAbs 1 : Int)

end Double

/-- The operator `+` of `double`. -/
instance instAddDouble : Add Double := ⟨Double.add⟩

/-- The operator `*` of `double`. -/
instance instMulDouble : Mul Double := ⟨Double.mul⟩

/-- The conversion of a `size_t` to `double`. -/
instance instNatCastDouble : NatCast Double := ⟨Double.ofNat⟩

/-! ## Structured grid (`Structured.h`) -/

/-- The data members of `Structured` (Structured.h:126-153).  `D` stands for `double`. -/
structure Structured (D : Type) where
  /-- Number of latitudes in hemisphere. -/
  N_ : Nat
  nlonmin_ : Nat
  nlonmax_ : Nat
  /-- Total number of unique points in the grid. -/
  npts_ : Nat
  /-- Latitude values. -/
  lat_ : List D
  /-- Number of points per latitude (`std::vector<long>`). -/
  pl_ : List Int
  /-- Value of minimum longitude per latitude. -/
  lonmin_ : List D
  /-- Value of maximum longitude per latitude. -/
  lonmax_ : List D
  /-- Value of longitude increment. -/
  lon_inc_ : List D

namespace Structured

variable {D : Type}

/-- `Structured::npts()` (Structured.h:54-56). -/
def npts (g : Structured D) : Nat := g.npts_

/-- `Structured::getOptimalMeshGenerator()` (Structured.h:62-64). -/
def getOptimalMeshGenerator (_ : Structured D) : String := "Structured"

/-- `Structured::N()` (Structured.h:66-68). -/
def N (g : Structured D) : Nat := g.N_

/-- `Structured::nlat()` (Structured.h:70-72): the size of `lat_`. -/
def nlat (g : Structured D) : Nat := g.lat_.length

/-- `Structured::nlon(jlat)` (Structured.h:74-76): `static_cast<size_t>(pl_[jlat])`. -/
def nlon (g : Structured D) (jlat : Nat) : Option Nat :=
  (g.pl_[jlat]?).map fun p => (p % 2 ^ 64).toNat

/-- `Structured::nlonmax()` (Structured.h:78-80). -/
def nlonmax (g : Structured D) : Nat := g.nlonmax_

/-- `Structured::nlonmin()` (Structured.h:82-84). -/
def nlonmin (g : Structured D) : Nat := g.nlonmin_

/-- `Structured::pl()` (Structured.h:86-88). -/
def pl (g : Structured D) : List Int := g.pl_

/-- `Structured::latitudes()` (Structured.h:90-92). -/
def latitudes (g : Structured D) : List D := g.lat_

/-- `Structured::lon(jlat, jlon)` (Structured.h:94-96):
`lonmin_[jlat] + static_cast<double>(jlon) * lon_inc_[jlat]`. -/
def lon [Add D] [Mul D] [NatCast D] (g : Structured D) (jlat jlon : Nat) : Option D := do
  let lonmin ← g.lonmin_[jlat]?
  let lon_inc ← g.lon_inc_[jlat]?
  pure (lonmin + (jlon : D) * lon_inc)

/-- `Structured::lat(jlat)` (Structured.h:98-100): `lat_[jlat]`. -/
def lat (g : Structured D) (jlat : Nat) : Option D := g.lat_[jlat]?

/-- The assignment `crd[i] = v` into a caller-supplied array `double crd[]`. -/
def store (crd : List D) (i : Nat) (v : D) : Option (List D) :=
  if i < crd.length then some (crd.set i v) else none

/-- `Structured::lonlat(jlat, jlon, crd)` (Structured.h:102-105): `crd[0] = lon(jlat,jlon);
crd[1] = lat(jlat);`.  Returns the array after the two assignments. -/
def lonlat [Add D] [Mul D] [NatCast D] (g : Structured D) (jlat jlon : Nat) (crd : List D) :
    Option (List D) := do
  let x ← g.lon jlat jlon
  let crd0 ← store crd 0 x
  let y ← g.lat jlat
  store crd0 1 y

/-- `Structured::reduced()` (Structured.h:107-109): `nlonmax() != nlonmin()`. -/
def reduced (g : Structured D) : Bool := g.nlonmax != g.nlonmin

/-- The size part of the data-model invariant: every per-latitude vector has `nlat()` entries. -/
def Sized (g : Structured D) : Prop :=
  g.pl_.length = g.nlat ∧ g.lonmin_.length = g.nlat ∧ g.lonmax_.length = g.nlat ∧
    g.lon_inc_.length = g.nlat

/-- Whether the vectors of a grid all have `nlat()` entries can be computed. -/
instance decidableSized (g : Structured D) : Decidable g.Sized := by
  unfold Sized
  infer_instance

/-- Modelled from the spec: the input check of `Structured::setup` (whose body is not part of the
sources), as the spec lists it: the four arrays have `nlat` entries, every per-latitude count is
at least one, and the bounds of every band are well formed.  What makes a pair of bounds well
formed is not spelled out and stays a parameter. -/
def setupInputOk (boundsOk : D → D → Bool) (nlat : Nat) (lats : List D) (pl : List Int)
    (lonmin lonmax : List D) : Bool :=
  decide (lats.length = nlat) && decide (pl.length = nlat) && decide (lonmin.length = nlat) &&
    decide (lonmax.length = nlat) && pl.all (fun p => decide (1 ≤ p)) &&
    (List.zipWith boundsOk lonmin lonmax).all id

/-- Modelled from the spec: `Structured::setup(nlat, lats, pl, lonmin, lonmax)` is only declared
in `Structured.h` (line 120); its body is not part of the sources.  Following the spec, the
explicit setup validates the invariants (failing fast otherwise), stores the per-latitude arrays
and computes `npts = sum(pl)`, `nlonmin = min(pl)`, `nlonmax = max(pl)`.  How the increment of a
band is obtained from its bounds and count is not spelled out and stays a parameter
(`increment`). -/
def setup (boundsOk : D → D → Bool) (increment : D → D → Int → D) (g : Structured D)
    (nlat : Nat) (lats : List D) (pl : List Int) (lonmin lonmax : List D) :
    Except Exn (Structured D) :=
  if setupInputOk boundsOk nlat lats pl lonmin lonmax then
    .ok { g with
      lat_ := lats
      pl_ := pl
      lonmin_ := lonmin
      lonmax_ := lonmax
      lon_inc_ := List.zipWith3 increment lonmin lonmax pl
      npts_ := pl.sum.toNat
      nlonmin_ := (pl.min?.getD 0).toNat
      nlonmax_ := (pl.max?.getD 0).toNat }
  else .error .bad_grid

end Structured

/-! ## Partitioner factory (`Partitioner.h`) -/

/-- The data members of `Partitioner` (Partitioner.h:53-56).  `G` is `grid::Grid`. -/
structure Partitioner (G : Type) where
  nb_partitions_ : Nat
  grid_ : G

/-- `Partitioner::grid()` (Partitioner.h:49-51). -/
def Partitioner.grid {G : Type} (p : Partitioner G) : G := p.grid_

/-- A concrete partitioning class `T` as `PartitionerBuilder<T>` uses it: its two constructors
`T(grid)` and `T(grid, nb_partitions)`.  `G` is `grid::Grid`, `P` the partitioner objects. -/
structure PartitionerClass (G P : Type) where
  ctor : G → P
  ctor_nb : G → Nat → P

/-- The class `PartitionerFactory` (Partitioner.h:62-85): the key `name_` and the two pure virtual
members `make(grid)` and `make(grid, nb_partitions)`. -/
structure PartitionerFactory (G P : Type) where
  name_ : String
  make : G → P
  make_nb : G → Nat → P

/-- The class template `PartitionerBuilder<T>` (Partitioner.h:89-99): a factory keyed `name` whose
`make` members return `new T(grid)` and `new T(grid, nb_partitions)`. -/
def PartitionerBuilder {G P : Type} (T : PartitionerClass G P) (name : String) :
    PartitionerFactory G P :=
  { name_ := name
    make := fun grid => T.ctor grid
    make_nb := fun grid nb_partitions => T.ctor_nb grid nb_partitions }

namespace PartitionerFactory

variable {G P : Type}

/-- Modelled from the spec: the registry the factories register themselves in is kept by code
that is not part of the sources; here it is the list of registered factories, and `find` is the
lookup by key. -/
def find (registry : List (PartitionerFactory G P)) (name : String) :
    Option (PartitionerFactory G P) :=
  registry.find? fun f => f.name_ == name

/-- Modelled from the spec: `PartitionerFactory::has(name)` is only declared in `Partitioner.h`
(line 75); it tells whether a factory is registered under `name`. -/
def has (registry : List (PartitionerFactory G P)) (name : String) : Bool :=
  (find registry name).isSome

/-- Modelled from the spec: `PartitionerFactory::build(name, grid)` is only declared in
`Partitioner.h` (line 68); it looks the key up and instantiates through the factory found,
failing with an error identifying the name when the key is unknown. -/
def build (registry : List (PartitionerFactory G P)) (name : String) (grid : G) : Except Exn P :=
  match find registry name with
  | some f => .ok (f.make grid)
  | none => .error (.unknown_partitioner name)

/-- Modelled from the spec: `PartitionerFactory::build(name, grid, nb_partitions)` is only
declared in `Partitioner.h` (line 69). -/
def build_nb (registry : List (PartitionerFactory G P)) (name : String) (grid : G)
    (nb_partitions : Nat) : Except Exn P :=
  match find registry name with
  | some f => .ok (f.make_nb grid nb_partitions)
  | none => .error (.unknown_partitioner name)

end PartitionerFactory

/-! ## Concrete grids and registries used to evaluate the definitions -/

/-- The reduced grid of the spec's end-to-end scenario: four latitude bands with
`pl = [2, 4, 4, 2]`, twelve points, longitudes in degrees over exact rationals. -/
def reducedGrid : Structured ℚ :=
  { N_ := 2, nlonmin_ := 2, nlonmax_ := 4, npts_ := 12
    lat_ := [60, 20, -20, -60]
    pl_ := [2, 4, 4, 2]
    lonmin_ := [0, 0, 0, 0]
    lonmax_ := [180, 270, 270, 180]
    lon_inc_ := [180, 90, 90, 180] }

/-- A regular grid: four latitude bands of four points each. -/
def regularGrid : Structured ℚ :=
  { N_ := 2, nlonmin_ := 4, nlonmax_ := 4, npts_ := 16
    lat_ := [60, 20, -20, -60]
    pl_ := [4, 4, 4, 4]
    lonmin_ := [0, 0, 0, 0]
    lonmax_ := [270, 270, 270, 270]
    lon_inc_ := [90, 90, 90, 90] }

/-- A partitioning class whose constructors store their arguments; `dflt` is the partition count
it takes when none is given. -/
def storingClass (dflt : Nat) : PartitionerClass (Structured ℚ) (Partitioner (Structured ℚ)) :=
  { ctor := fun grid => ⟨dflt, grid⟩
    ctor_nb := fun grid nb_partitions => ⟨nb_partitions, grid⟩ }

/-- A registry holding two builders, keyed `bands` and `blocks`. -/
def twoBuilders : List (PartitionerFactory (Structured ℚ) (Partitioner (Structured ℚ))) :=
  [PartitionerBuilder (storingClass 1) "bands", PartitionerBuilder (storingClass 2) "blocks"]

/-- An object before `setup` ran: the derived class has set `N_`, the vectors are still empty. -/
def blankGrid : Structured ℚ :=
  { N_ := 2, nlonmin_ := 0, nlonmax_ := 0, npts_ := 0
    lat_ := [], pl_ := [], lonmin_ := [], lonmax_ := [], lon_inc_ := [] }

/-- The bounds check used to evaluate `setup` in double arithmetic: both bounds are finite and
`lonmin < lonmax`. -/
def strictBounds (lonmin lonmax : Double) : Bool :=
  lonmin.isFinite && lonmax.isFinite && Double.lt lonmin lonmax

/-- The increment used to evaluate `setup` in double arithmetic: the width of the band divided by
the number of steps from its first to its last point, `(lonmax - lonmin) / (double(pl) - 1)`. -/
def evenIncrement (lonmin lonmax : Double) (pl : Int) : Double :=
  Double.div (Double.sub lonmax lonmin) (Double.sub (Double.ofInt pl) (Double.ofNat 1))

/-- An object of doubles before `setup` ran: the derived class has set `N_`, the vectors are
still empty. -/
def blankDoubleGrid : Structured Double :=
  { N_ := 1, nlonmin_ := 0, nlonmax_ := 0, npts_ := 0
    lat_ := [], pl_ := [], lonmin_ := [], lonmax_ := [], lon_inc_ := [] }

/-- The reduced grid of the spec's scenario in doubles: `pl = [2, 4, 4, 2]`, whole degrees. -/
def degreeGrid : Structured Double :=
  { N_ := 2, nlonmin_ := 2, nlonmax_ := 4, npts_ := 12
    lat_ := [Double.ofInt 60, Double.ofInt 20, Double.ofInt (-20), Double.ofInt (-60)]
    pl_ := [2, 4, 4, 2]
    lonmin_ := [Double.ofNat 0, Double.ofNat 0, Double.ofNat 0, Double.ofNat 0]
    lonmax_ := [Double.ofNat 180, Double.ofNat 270, Double.ofNat 270, Double.ofNat 180]
    lon_inc_ := [Double.ofNat 180, Double.ofNat 90, Double.ofNat 90, Double.ofNat 180] }

/-- A grid of two bands of a single point each, from 0 to 360 degrees; no step separates the
first from the last point of a band, and the increment is the quotient `360 / 0`, infinity. -/
def poleGrid : Structured Double :=
  { N_ := 1, nlonmin_ := 1, nlonmax_ := 1, npts_ := 2
    lat_ := [Double.ofInt 90, Double.ofInt (-90)]
    pl_ := [1, 1]
    lonmin_ := [Double.ofNat 0, Double.ofNat 0]
    lonmax_ := [Double.ofNat 360, Double.ofNat 360]
    lon_inc_ := [⟨false, Double.INF⟩, ⟨false, Double.INF⟩] }

/-! ## Properties of the field storage -/

namespace Field

/-- Claim C1.  For a field of kind `K` and a requested kind `T`: when `T = K`, `data<T>()` succeeds
and hands the caller the field's own buffer (the caller's action is run on the stored buffer, what
it leaves there is what the field stores afterwards, and a value assigned through the returned
reference is what a later `data<T>()` reads); when `T ≠ K` it fails with a `std::runtime_error`;
and it never succeeds for a kind other than the field's own. -/
theorem data_own_buffer_or_type_mismatch {β : Type} (T : CType) (f : Field)
    (use : List T.elem → List T.elem × β) :
    (T = f.kind →
      ∃ buf f', f.stored T = some buf ∧ f.data T use = .ok (f', (use buf).2) ∧
        f'.stored T = some (use buf).1 ∧ f'.kind = f.kind) ∧
    (T = f.kind →
      ∀ w, ∃ f', f.data T (assign w) = .ok (f', ()) ∧ f'.data T readAll = .ok (f', w)) ∧
    (T ≠ f.kind → ∃ what, f.data T use = .error (.runtime_error what)) ∧
    (∀ r, f.data T use = .ok r → T = f.kind) := by
  cases T <;> cases f <;>
    simp [Field.data, Field.data_int, Field.data_float, Field.data_double, Field.dynamic_cast_int,
      Field.dynamic_cast_float, Field.dynamic_cast_double, Field.kind, Field.stored, FieldT.data,
      assign, readAll]

/-- Claim C1 on the scenario of the spec: a real64 field named `temperature` refuses `data<int>()`
with a `std::runtime_error`, grants `data<double>()`, and a buffer assigned through the granted
reference is read back by the next `data<double>()`. -/
theorem data_own_buffer_or_type_mismatch_witness :
    (∃ what, (Field.of_double ⟨"temperature", 1, ⟨0⟩, [⟨1⟩, ⟨2⟩]⟩).data .int readAll
        = .error (.runtime_error what)) ∧
    (∃ f', (Field.of_double ⟨"temperature", 1, ⟨0⟩, [⟨1⟩, ⟨2⟩]⟩).data .double
        (assign [⟨5⟩, ⟨6⟩]) = .ok (f', ()) ∧ f'.data .double readAll = .ok (f', [⟨5⟩, ⟨6⟩])) :=
  ⟨(data_own_buffer_or_type_mismatch .int
      (Field.of_double ⟨"temperature", 1, ⟨0⟩, [⟨1⟩, ⟨2⟩]⟩) readAll).2.2.1 (by decide),
   (data_own_buffer_or_type_mismatch .double
      (Field.of_double ⟨"temperature", 1, ⟨0⟩, [⟨1⟩, ⟨2⟩]⟩) readAll).2.1 rfl [⟨5⟩, ⟨6⟩]⟩

/-- Claim C6.  Whenever the requested kind `T` differs from the field's kind, `data<T>()` fails
with the message `Could not cast Field <name()> with data_type <data_type()> to <tag of T>`, which
contains the field's name, the field's actual data-type tag and the tag of the requested kind. -/
theorem data_mismatch_message {β : Type} (T : CType) (f : Field)
    (use : List T.elem → List T.elem × β) (h : T ≠ f.kind) :
    ∃ what, f.data T use = .error (.runtime_error what) ∧
      what = "Could not cast Field " ++ f.name ++ " with data_type " ++ f.data_type ++ " to "
        ++ T.tag ∧
      (∃ a b, what = a ++ f.name ++ b) ∧ (∃ a b, what = a ++ f.data_type ++ b) ∧
      (∃ a, what = a ++ T.tag) ∧
      T.tag = (match T with | .int => "int32" | .float => "real32" | .double => "real64") := by
  refine ⟨"Could not cast Field " ++ f.name ++ " with data_type " ++ f.data_type ++ " to "
    ++ T.tag, ?_, rfl, ⟨"Could not cast Field ", " with data_type " ++ f.data_type ++ " to "
    ++ T.tag, ?_⟩, ⟨"Could not cast Field " ++ f.name ++ " with data_type ", " to " ++ T.tag, ?_⟩,
    ⟨_, rfl⟩, ?_⟩
  · cases T <;> cases f <;>
      first
      | exact absurd rfl h
      | simp [Field.data, Field.data_int, Field.data_float, Field.data_double,
          Field.dynamic_cast_int, Field.dynamic_cast_float, Field.dynamic_cast_double,
          CType.tag, String.append_assoc]
  · simp [String.append_assoc]
  · simp [String.append_assoc]
  · cases T <;> rfl

/-- Claim C6 at a real64 field named `temperature` asked for `data<int>()`: the message is
`Could not cast Field temperature with data_type real64 to int32`. -/
theorem data_mismatch_message_witness :
    (Field.of_double ⟨"temperature", 1, ⟨0⟩, []⟩).data .int readAll
      = .error (.runtime_error "Could not cast Field temperature with data_type real64 to int32") := by
  obtain ⟨what, h1, h2, -⟩ := data_mismatch_message .int
    (Field.of_double ⟨"temperature", 1, ⟨0⟩, []⟩) readAll (by decide)
  rw [h1, h2]
  rfl

/-- Claim C7.  `data_type()` is the tag of the field's kind alone (`int32` for `FieldT<int>`,
`real32` for `FieldT<float>`, `real64` for `FieldT<double>`), the three tags are pairwise
distinct, and `data<T>()` succeeds for exactly the kind `T` whose tag the field reports. -/
theorem data_type_identifies_kind (f : Field) :
    f.data_type = f.kind.tag ∧
    (CType.int.tag = "int32" ∧ CType.float.tag = "real32" ∧ CType.double.tag = "real64") ∧
    ("int32" ≠ "real32" ∧ "int32" ≠ "real64" ∧ "real32" ≠ "real64") ∧
    (∀ g : Field, g.kind = f.kind → g.data_type = f.data_type) ∧
    (∀ (β : Type) (T : CType) (use : List T.elem → List T.elem × β),
      (∃ r, f.data T use = .ok r) ↔ T.tag = f.data_type) := by
  refine ⟨?_, ⟨rfl, rfl, rfl⟩, ⟨by decide, by decide, by decide⟩, ?_, ?_⟩
  · cases f <;> rfl
  · intro g hg
    cases f <;> cases g <;> first | rfl | cases hg
  · intro β T use
    cases T <;> cases f <;>
      simp [Field.data, Field.data_int, Field.data_float, Field.data_double,
        Field.dynamic_cast_int, Field.dynamic_cast_float, Field.dynamic_cast_double,
        Field.data_type, FieldT.data_type, CType.tag]

/-- Writing through a pointer to the first cell leaves the number of cells as it was. -/
theorem length_writeThrough {α : Type} (old new : List α) :
    (writeThrough old new).length = old.length := by
  simp only [writeThrough, List.length_append, List.length_take, List.length_drop]
  omega

/-- Claim C10.  For a field of each kind, constructed with `name`, `nb_vars` and the function space
`fs`, `halo_exchange()` adds exactly one request to the calls received by function spaces: it goes
to `fs` and passes the field's whole buffer and that buffer's length.  The buffer passed is the
field's own storage, not a copy: what the function space leaves in the cells it was handed is what
the field holds afterwards, in as many cells as before.  Afterwards the field has the same name,
`nb_vars`, data-type tag and function space. -/
theorem halo_exchange_single_request
    (exchange : (T : CType) → FunctionSpace → List T.elem → Nat → List T.elem)
    (name : String) (nb_vars : Int) (fs : FunctionSpace) (log : List HaloRequest) :
    (∀ buf : List Int,
      ((Field.of_int ⟨name, nb_vars, fs, buf⟩).halo_exchange exchange log).2
          = log ++ [⟨fs, .int, buf, buf.length⟩] ∧
        ((Field.of_int ⟨name, nb_vars, fs, buf⟩).halo_exchange exchange log).1.stored .int
          = some (writeThrough buf (exchange .int fs buf buf.length)) ∧
        (writeThrough buf (exchange .int fs buf buf.length)).length = buf.length ∧
        ((Field.of_int ⟨name, nb_vars, fs, buf⟩).halo_exchange exchange log).1.name = name ∧
        ((Field.of_int ⟨name, nb_vars, fs, buf⟩).halo_exchange exchange log).1.nb_vars = nb_vars ∧
        ((Field.of_int ⟨name, nb_vars, fs, buf⟩).halo_exchange exchange log).1.data_type = "int32" ∧
        ((Field.of_int ⟨name, nb_vars, fs, buf⟩).halo_exchange exchange log).1.function_space = fs) ∧
    (∀ buf : List CFloat,
      ((Field.of_float ⟨name, nb_vars, fs, buf⟩).halo_exchange exchange log).2
          = log ++ [⟨fs, .float, buf, buf.length⟩] ∧
        ((Field.of_float ⟨name, nb_vars, fs, buf⟩).halo_exchange exchange log).1.stored .float
          = some (writeThrough buf (exchange .float fs buf buf.length)) ∧
        (writeThrough buf (exchange .float fs buf buf.length)).length = buf.length ∧
        ((Field.of_float ⟨name, nb_vars, fs, buf⟩).halo_exchange exchange log).1.name = name ∧
        ((Field.of_float ⟨name, nb_vars, fs, buf⟩).halo_exchange exchange log).1.nb_vars = nb_vars ∧
        ((Field.of_float ⟨name, nb_vars, fs, buf⟩).halo_exchange exchange log).1.data_type
          = "real32" ∧
        ((Field.of_float ⟨name, nb_vars, fs, buf⟩).halo_exchange exchange log).1.function_space
          = fs) ∧
    (∀ buf : List CDouble,
      ((Field.of_double ⟨name, nb_vars, fs, buf⟩).halo_exchange exchange log).2
          = log ++ [⟨fs, .double, buf, buf.length⟩] ∧
        ((Field.of_double ⟨name, nb_vars, fs, buf⟩).halo_exchange exchange log).1.stored .double
          = some (writeThrough buf (exchange .double fs buf buf.length)) ∧
        (writeThrough buf (exchange .double fs buf buf.length)).length = buf.length ∧
        ((Field.of_double ⟨name, nb_vars, fs, buf⟩).halo_exchange exchange log).1.name = name ∧
        ((Field.of_double ⟨name, nb_vars, fs, buf⟩).halo_exchange exchange log).1.nb_vars
          = nb_vars ∧
        ((Field.of_double ⟨name, nb_vars, fs, buf⟩).halo_exchange exchange log).1.data_type
          = "real64" ∧
        ((Field.of_double ⟨name, nb_vars, fs, buf⟩).halo_exchange exchange log).1.function_space
          = fs) :=
  ⟨fun _ => ⟨rfl, rfl, length_writeThrough _ _, rfl, rfl, rfl, rfl⟩,
    fun _ => ⟨rfl, rfl, length_writeThrough _ _, rfl, rfl, rfl, rfl⟩,
    fun _ => ⟨rfl, rfl, length_writeThrough _ _, rfl, rfl, rfl, rfl⟩⟩

/-- Claim C10 on an int32 field holding `[1, 2, 3]` whose function space (number 7) reverses the
cells it is handed: the one request carries `[1, 2, 3]` and the length 3, and the field holds
`[3, 2, 1]` afterwards. -/
theorem halo_exchange_single_request_witness :
    ((Field.of_int ⟨"t", 1, ⟨7⟩, [1, 2, 3]⟩).halo_exchange (fun _ _ buf _ => buf.reverse) []).2
        = [⟨⟨7⟩, .int, [1, 2, 3], 3⟩] ∧
      ((Field.of_int ⟨"t", 1, ⟨7⟩, [1, 2, 3]⟩).halo_exchange
        (fun _ _ buf _ => buf.reverse) []).1.stored .int = some [3, 2, 1] :=
  ⟨((halo_exchange_single_request (fun _ _ buf _ => buf.reverse) "t" 1 ⟨7⟩ []).1 [1, 2, 3]).1,
   ((halo_exchange_single_request (fun _ _ buf _ => buf.reverse) "t" 1 ⟨7⟩ []).1 [1, 2, 3]).2.1⟩

end Field

/-! ## Properties of `double` arithmetic -/

namespace Double

/-- Rounding to the nearest integer does not go below the quotient. -/
theorem roundHalfEven_ge (n d : Nat) : n / d ≤ roundHalfEven n d := by
  unfold roundHalfEven
  split_ifs <;> omega

/-- Rounding to the nearest integer goes at most one above the quotient. -/
theorem roundHalfEven_le (n d : Nat) : roundHalfEven n d ≤ n / d + 1 := by
  unfold roundHalfEven
  split_ifs <;> omega

/-- An integer not above `n / d` is not above its rounding. -/
theorem le_roundHalfEven {a n d : Nat} (hd : 0 < d) (h : a * d ≤ n) : a ≤ roundHalfEven n d :=
  le_trans ((Nat.le_div_iff_mul_le hd).mpr h) (roundHalfEven_ge n d)

/-- A whole quotient is rounded to itself. -/
theorem roundHalfEven_mul (a d : Nat) (hd : 0 < d) : roundHalfEven (a * d) d = a := by
  unfold roundHalfEven
  rw [Nat.mul_mod_left, Nat.mul_div_cancel _ hd]
  simp [hd]

/-- An integer not below `n / d` is not below its rounding. -/
theorem roundHalfEven_le_of_le {b n d : Nat} (hd : 0 < d) (h : n ≤ b * d) :
    roundHalfEven n d ≤ b := by
  rcases Nat.lt_or_ge n (b * d) with hlt | hge
  · have : n / d < b := (Nat.div_lt_iff_lt_mul hd).mpr hlt
    have := roundHalfEven_le n d
    omega
  · have : n = b * d := le_antisymm h hge
    rw [this, roundHalfEven_mul b d hd]

/-- The quotient is monotone in the fraction `n / d`. -/
theorem div_le_div_of_mul_le {n d n' d' : Nat} (hd : 0 < d) (hd' : 0 < d')
    (h : n * d' ≤ n' * d) : n / d ≤ n' / d' := by
  rw [Nat.le_div_iff_mul_le hd']
  have h1 : n / d * d ≤ n := Nat.div_mul_le_self n d
  have h2 : n / d * d' * d ≤ n' * d := by
    calc n / d * d' * d = n / d * d * d' := by ring
      _ ≤ n * d' := Nat.mul_le_mul_right _ h1
      _ ≤ n' * d := h
  exact Nat.le_of_mul_le_mul_right h2 hd

/-- Rounding to the nearest integer, ties to even, is monotone in the fraction `n / d`. -/
theorem roundHalfEven_mono {n d n' d' : Nat} (hd : 0 < d) (hd' : 0 < d')
    (h : n * d' ≤ n' * d) : roundHalfEven n d ≤ roundHalfEven n' d' := by
  have hq : n / d ≤ n' / d' := div_le_div_of_mul_le hd hd' h
  rcases Nat.lt_or_ge (n / d) (n' / d') with hlt | hge
  · have := roundHalfEven_le n d
    have := roundHalfEven_ge n' d'
    omega
  · have hqq : n / d = n' / d' := le_antisymm hq hge
    have e1 : d * (n / d) + n % d = n := Nat.div_add_mod n d
    have e2 : d' * (n' / d') + n' % d' = n' := Nat.div_add_mod n' d'
    have hr : n % d * d' ≤ n' % d' * d := by
      have : (d * (n / d) + n % d) * d' ≤ (d' * (n' / d') + n' % d') * d := by
        rw [e1, e2]; exact h
      rw [← hqq] at this
      nlinarith
    unfold roundHalfEven
    rw [← hqq]
    by_cases c1 : 2 * (n % d) < d
    · simp only [c1, if_true]
      split_ifs <;> omega
    · by_cases c2 : d < 2 * (n % d)
      · have c2' : d' < 2 * (n' % d') := by
          by_contra hc
          have hc' : 2 * (n' % d') ≤ d' := Nat.le_of_not_lt hc
          nlinarith
        have c1' : ¬ 2 * (n' % d') < d' := by omega
        simp only [c1, c2, c1', c2', if_true, if_false]
        exact le_refl _
      · have ht : 2 * (n % d) = d := by omega
        by_cases c1' : 2 * (n' % d') < d'
        · exfalso
          nlinarith
        · simp only [c1, c2, c1', if_false]
          split_ifs <;> omega

/-- With enough fuel the halvings stop below `2 ^ 53`, and at or above `2 ^ 52` when there was
at least one. -/
theorem shiftFrom_spec : ∀ (fuel t : Nat), t ≤ fuel →
    t / 2 ^ shiftFrom fuel t < 2 ^ 53 ∧
      (0 < shiftFrom fuel t → 2 ^ 52 ≤ t / 2 ^ shiftFrom fuel t) := by
  intro fuel
  induction fuel with
  | zero =>
    intro t ht
    have : t = 0 := by omega
    subst this
    simp [shiftFrom]
  | succ k ih =>
    intro t ht
    unfold shiftFrom
    by_cases c : t < 2 ^ 53
    · rw [if_pos c]
      simpa using c
    · rw [if_neg c]
      have hk : t / 2 ≤ k := by omega
      obtain ⟨h1, h2⟩ := ih (t / 2) hk
      have e : t / 2 ^ (shiftFrom k (t / 2) + 1) = t / 2 / 2 ^ shiftFrom k (t / 2) := by
        rw [pow_succ, mul_comm, Nat.div_div_eq_div_mul]
      rw [e]
      refine ⟨h1, fun _ => ?_⟩
      by_cases c0 : 0 < shiftFrom k (t / 2)
      · exact h2 c0
      · have z : shiftFrom k (t / 2) = 0 := by omega
        rw [z]
        simp only [pow_zero, Nat.div_one]
        omega

/-- The shifted value lies below `2 ^ 53`. -/
theorem shift_lt (t : Nat) : t / 2 ^ shift t < 2 ^ 53 :=
  (shiftFrom_spec t t (le_refl t)).1

/-- After at least one halving the shifted value is at least `2 ^ 52`. -/
theorem shift_ge (t : Nat) (h : 0 < shift t) : 2 ^ 52 ≤ t / 2 ^ shift t :=
  (shiftFrom_spec t t (le_refl t)).2 h

/-- The two bounds on the shifted value characterise the shift. -/
theorem shift_unique (t k : Nat) (h1 : t / 2 ^ k < 2 ^ 53) (h2 : 0 < k → 2 ^ 52 ≤ t / 2 ^ k) :
    shift t = k := by
  have a1 := shift_lt t
  have a2 := shift_ge t
  have p1 : ∀ j, t / 2 ^ j < 2 ^ 53 ↔ t < 2 ^ 53 * 2 ^ j := fun j =>
    Nat.div_lt_iff_lt_mul (Nat.two_pow_pos _)
  have p2 : ∀ j, 2 ^ 52 ≤ t / 2 ^ j ↔ 2 ^ 52 * 2 ^ j ≤ t := fun j =>
    Nat.le_div_iff_mul_le (Nat.two_pow_pos _)
  rw [p1] at h1 a1
  rcases Nat.lt_trichotomy (shift t) k with hlt | heq | hgt
  · exfalso
    have hk := (p2 k).mp (h2 (by omega))
    have hpow : 2 ^ (shift t + 1) ≤ 2 ^ k := Nat.pow_le_pow_right (by norm_num) hlt
    have : 2 ^ 53 * 2 ^ shift t = 2 ^ 52 * 2 ^ (shift t + 1) := by ring
    have : 2 ^ 52 * 2 ^ (shift t + 1) ≤ 2 ^ 52 * 2 ^ k := Nat.mul_le_mul_left _ hpow
    omega
  · exact heq
  · exfalso
    have hk := (p2 (shift t)).mp (a2 (by omega))
    have hpow : 2 ^ (k + 1) ≤ 2 ^ shift t := Nat.pow_le_pow_right (by norm_num) hgt
    have : 2 ^ 53 * 2 ^ k = 2 ^ 52 * 2 ^ (k + 1) := by ring
    have : 2 ^ 52 * 2 ^ (k + 1) ≤ 2 ^ 52 * 2 ^ shift t := Nat.mul_le_mul_left _ hpow
    omega

/-- Values below `2 ^ 53` need no halving. -/
theorem shift_eq_zero {t : Nat} (h : t < 2 ^ 53) : shift t = 0 :=
  shift_unique t 0 (by simpa using h) (fun h0 => absurd h0 (lt_irrefl 0))

/-- The shift is monotone. -/
theorem shift_mono {t t' : Nat} (h : t ≤ t') : shift t ≤ shift t' := by
  by_contra hc
  have hlt : shift t' < shift t := Nat.lt_of_not_le hc
  have a1 := shift_lt t'
  have a2 := shift_ge t (by omega)
  rw [Nat.div_lt_iff_lt_mul (Nat.two_pow_pos _)] at a1
  rw [Nat.le_div_iff_mul_le (Nat.two_pow_pos _)] at a2
  have hpow : 2 ^ (shift t' + 1) ≤ 2 ^ shift t := Nat.pow_le_pow_right (by norm_num) hlt
  have : 2 ^ 53 * 2 ^ shift t' = 2 ^ 52 * 2 ^ (shift t' + 1) := by ring
  have : 2 ^ 52 * 2 ^ (shift t' + 1) ≤ 2 ^ 52 * 2 ^ shift t := Nat.mul_le_mul_left _ hpow
  omega

/-- Rounding never produces a NaN. -/
theorem roundMag_le_INF (n d : Nat) : roundMag n d ≤ INF := by
  unfold roundMag
  exact Nat.min_le_right _ _

/-- Zero is rounded to zero. -/
theorem roundMag_zero (d : Nat) (hd : 0 < d) : roundMag 0 d = 0 := by
  have h0 : shift (0 / d) = 0 := shift_eq_zero (by simp)
  unfold roundMag
  rw [h0]
  have : roundHalfEven 0 (d * 2 ^ 0) = 0 := by
    have := roundHalfEven_mul 0 (d * 2 ^ 0) (by simpa using hd)
    simpa using this
  rw [this]
  simp

/-- A number lies below the next multiple of `d` after its quotient by `d`. -/
theorem lt_succ_div_mul (n d : Nat) (hd : 0 < d) : n < (n / d + 1) * d := by
  have := Nat.div_add_mod n d
  have := Nat.mod_lt n hd
  nlinarith

/-- Rounding to the nearest double is monotone: a larger fraction `n / d` does not give smaller
magnitude bits. -/
theorem roundMag_mono {n d n' d' : Nat} (hd : 0 < d) (hd' : 0 < d') (h : n * d' ≤ n' * d) :
    roundMag n d ≤ roundMag n' d' := by
  have ht : n / d ≤ n' / d' := div_le_div_of_mul_le hd hd' h
  have hs : shift (n / d) ≤ shift (n' / d') := shift_mono ht
  unfold roundMag
  apply min_le_min _ (le_refl _)
  have hp : ∀ k : Nat, 0 < 2 ^ k := fun k => Nat.two_pow_pos k
  rcases Nat.eq_or_lt_of_le hs with heq | hlt
  · rw [← heq]
    apply Nat.add_le_add_left
    apply roundHalfEven_mono (Nat.mul_pos hd (hp _)) (Nat.mul_pos hd' (hp _))
    calc n * (d' * 2 ^ shift (n / d)) = n * d' * 2 ^ shift (n / d) := by ring
      _ ≤ n' * d * 2 ^ shift (n / d) := Nat.mul_le_mul_right _ h
      _ = n' * (d * 2 ^ shift (n / d)) := by ring
  · -- the first result stays below the first value of the next binade
    have u1 : roundHalfEven n (d * 2 ^ shift (n / d)) ≤ 2 ^ 53 := by
      apply roundHalfEven_le_of_le (Nat.mul_pos hd (hp _))
      have a := shift_lt (n / d)
      rw [Nat.div_lt_iff_lt_mul (hp _)] at a
      have b := lt_succ_div_mul n d hd
      have c : (n / d + 1) * d ≤ 2 ^ 53 * 2 ^ shift (n / d) * d := Nat.mul_le_mul_right _ a
      calc n ≤ (n / d + 1) * d := le_of_lt b
        _ ≤ 2 ^ 53 * 2 ^ shift (n / d) * d := c
        _ = 2 ^ 53 * (d * 2 ^ shift (n / d)) := by ring
    have l1 : 2 ^ 52 ≤ roundHalfEven n' (d' * 2 ^ shift (n' / d')) := by
      apply le_roundHalfEven (Nat.mul_pos hd' (hp _))
      have a := shift_ge (n' / d') (by omega)
      rw [Nat.le_div_iff_mul_le (hp _)] at a
      have b : n' / d' * d' ≤ n' := Nat.div_mul_le_self n' d'
      calc 2 ^ 52 * (d' * 2 ^ shift (n' / d')) = 2 ^ 52 * 2 ^ shift (n' / d') * d' := by ring
        _ ≤ n' / d' * d' := Nat.mul_le_mul_right _ a
        _ ≤ n' := b
    have : (shift (n / d) + 1) * 2 ^ 52 ≤ shift (n' / d') * 2 ^ 52 :=
      Nat.mul_le_mul_right _ hlt
    have e : (shift (n / d) + 1) * 2 ^ 52 = shift (n / d) * 2 ^ 52 + 2 ^ 52 := by ring
    omega

/-- The magnitude zero counts zero units. -/
theorem units_zero : units 0 = 0 := by
  simp [units]

/-- Only the magnitude zero counts zero units. -/
theorem units_eq_zero {m : Nat} (h : units m = 0) : m = 0 := by
  unfold units at h
  split_ifs at h with c
  · exact h
  · exfalso
    have : 0 < (m % 2 ^ 52 + 2 ^ 52) * 2 ^ (m / 2 ^ 52 - 1) :=
      Nat.mul_pos (by positivity) (Nat.two_pow_pos _)
    omega

/-- Rounding the value of a finite double gives that double back. -/
theorem roundMag_units {m : Nat} (h : m < INF) : roundMag (units m) 1 = m := by
  have e1 := Nat.div_add_mod m (2 ^ 52)
  have r1 := Nat.mod_lt m (Nat.two_pow_pos 52)
  have hI : INF = 2047 * 2 ^ 52 := rfl
  by_cases c : m / 2 ^ 52 = 0
  · have hu : units m = m := by unfold units; rw [if_pos c]
    have hm : m < 2 ^ 52 := by rw [c] at e1; omega
    have hs : shift (units m / 1) = 0 := shift_eq_zero (by rw [hu, Nat.div_one]; omega)
    unfold roundMag
    rw [hs, hu]
    have : roundHalfEven m (1 * 2 ^ 0) = m := by
      have := roundHalfEven_mul m (1 * 2 ^ 0) (by norm_num)
      simpa using this
    rw [this]
    simp only [zero_mul, zero_add]
    exact Nat.min_eq_left (by omega)
  · have hu : units m = (m % 2 ^ 52 + 2 ^ 52) * 2 ^ (m / 2 ^ 52 - 1) := by
      unfold units; rw [if_neg c]
    have hs : shift (units m / 1) = m / 2 ^ 52 - 1 := by
      apply shift_unique
      · rw [Nat.div_one, hu, Nat.mul_div_cancel _ (Nat.two_pow_pos _)]
        omega
      · intro _
        rw [Nat.div_one, hu, Nat.mul_div_cancel _ (Nat.two_pow_pos _)]
        omega
    unfold roundMag
    rw [hs]
    have : roundHalfEven (units m) (1 * 2 ^ (m / 2 ^ 52 - 1)) = m % 2 ^ 52 + 2 ^ 52 := by
      rw [hu, one_mul]
      exact roundHalfEven_mul _ _ (Nat.two_pow_pos _)
    rw [this]
    apply Eq.trans (Nat.min_eq_left _)
    · have : (m / 2 ^ 52 - 1) * 2 ^ 52 + 2 ^ 52 = m / 2 ^ 52 * 2 ^ 52 := by
        have : m / 2 ^ 52 = (m / 2 ^ 52 - 1) + 1 := by omega
        nth_rewrite 2 [this]
        ring
      omega
    · have : (m / 2 ^ 52 - 1) * 2 ^ 52 + 2 ^ 52 = m / 2 ^ 52 * 2 ^ 52 := by
        have : m / 2 ^ 52 = (m / 2 ^ 52 - 1) + 1 := by omega
        nth_rewrite 2 [this]
        ring
      omega

/-- The sum of two finite doubles is not a NaN, and is the rounding of the exact sum. -/
theorem add_finite {x y : Double} (hx : x.mag < INF) (hy : y.mag < INF) :
    (add x y).mag ≤ INF ∧ (add x y).key = sround (x.toInt + y.toInt) := by
  have h1 : ¬ INF < x.mag := by omega
  have h2 : ¬ INF < y.mag := by omega
  have h3 : ¬ x.mag = INF := by omega
  have h4 : ¬ y.mag = INF := by omega
  by_cases c : x.toInt + y.toInt = 0
  · have e : add x y = ⟨x.sign && y.sign, 0⟩ := by
      simp [add, isNaN, isInf, h1, h2, h3, h4, c]
    rw [e, c]
    refine ⟨Nat.zero_le _, ?_⟩
    have z : roundMag 0 1 = 0 := roundMag_zero 1 (by norm_num)
    simp [key, sround, z]
  · have e : add x y = ⟨decide (x.toInt + y.toInt < 0), roundMag (x.toInt + y.toInt).natAbs 1⟩ := by
      simp [add, isNaN, isInf, h1, h2, h3, h4, c]
    rw [e]
    refine ⟨roundMag_le_INF _ _, ?_⟩
    unfold key sround
    by_cases c2 : x.toInt + y.toInt < 0
    · simp [c2]
    · simp [c2]

/-- The product of two finite doubles is the rounding of the exact product, with the sign of
the signs. -/
theorem mul_finite {x y : Double} (hx : x.mag < INF) (hy : y.mag < INF) :
    mul x y = ⟨x.sign != y.sign, roundMag (units x.mag * units y.mag) ONE⟩ := by
  have h1 : ¬ INF < x.mag := by omega
  have h2 : ¬ INF < y.mag := by omega
  have h3 : ¬ x.mag = INF := by omega
  have h4 : ¬ y.mag = INF := by omega
  simp [mul, isNaN, isInf, h1, h2, h3, h4]

/-- The conversion of a `size_t` is monotone. -/
theorem ofNat_mag_mono {j j' : Nat} (h : j ≤ j') : (ofNat j).mag ≤ (ofNat j').mag := by
  unfold ofNat
  exact roundMag_mono (by norm_num) (by norm_num) (by
    simp only [mul_one]
    exact Nat.mul_le_mul_right _ h)

/-- The double `2 ^ 64` has exponent field `1023 + 64`. -/
theorem ofNat_two_pow_64 : (ofNat (2 ^ 64)).mag = 1087 * 2 ^ 52 := by decide!

/-- The conversion of a `size_t` is finite. -/
theorem ofNat_finite {j : Nat} (h : j < 2 ^ 64) : (ofNat j).mag < INF := by
  have h1 := ofNat_mag_mono (le_of_lt h)
  rw [ofNat_two_pow_64] at h1
  have : INF = 2047 * 2 ^ 52 := rfl
  omega

/-- The scale `ONE` is positive. -/
theorem ONE_pos : 0 < ONE := by
  unfold ONE
  positivity

/-- The magnitude of infinity is positive. -/
theorem INF_pos : 0 < INF := by
  unfold INF
  exact Nat.mul_pos (by norm_num) (Nat.two_pow_pos _)

/-- The conversion of the index zero is the zero of positive sign. -/
theorem ofNat_zero : ofNat 0 = ⟨false, 0⟩ := by
  unfold ofNat
  rw [Nat.zero_mul, roundMag_zero 1 (by norm_num)]

/-- The product of a converted index and a finite increment: its sign is the increment's, its
magnitude grows with the index. -/
theorem mul_ofNat_finite {j : Nat} {inc : Double} (hj : j < 2 ^ 64) (hi : inc.mag < INF) :
    mul (ofNat j) inc = ⟨inc.sign, roundMag (units (ofNat j).mag * units inc.mag) ONE⟩ := by
  rw [mul_finite (ofNat_finite hj) hi]
  simp [ofNat]

/-- Adding a zero to a double that is not a NaN gives a double equal to it. -/
theorem add_zero_eq {x z : Double} (hx : x.mag ≤ INF) (hz : z.mag = 0) :
    eq (add x z) x = true := by
  have hz' : z.mag < INF := by rw [hz]; exact INF_pos
  have hzi : z.toInt = 0 := by
    unfold toInt
    rw [hz, units_zero]
    simp
  rcases Nat.eq_or_lt_of_le hx with e | l
  · have h1 : ¬ INF < x.mag := by omega
    have h2 : ¬ INF < z.mag := by omega
    have h4 : ¬ z.mag = INF := by omega
    have : add x z = x := by
      simp [add, isNaN, isInf, h1, h2, h4, e]
    rw [this]
    simp [eq, isNaN, h1]
  · obtain ⟨a1, k1⟩ := add_finite l hz'
    have h1 : ¬ INF < x.mag := by omega
    have h2 : ¬ INF < (add x z).mag := by omega
    have hk : (add x z).key = x.key := by
      rw [k1, hzi, add_zero]
      unfold sround toInt key
      by_cases cs : x.sign = true
      · rw [if_pos cs]
        by_cases c0 : units x.mag = 0
        · have := units_eq_zero c0
          rw [c0, this]
          simp [roundMag_zero 1 (by norm_num : 0 < 1)]
        · have hneg : -(units x.mag : Int) < 0 := by omega
          rw [if_pos hneg, Int.natAbs_neg, Int.natAbs_ofNat, roundMag_units l, if_pos cs]
      · rw [if_neg cs]
        have hnn : ¬ ((units x.mag : Int) < 0) := by omega
        rw [if_neg hnn, Int.natAbs_ofNat, roundMag_units l, if_neg cs]
    simp [eq, isNaN, h1, h2, hk]

/-- The product of the converted index zero and a finite increment is a zero. -/
theorem mul_ofNat_zero_mag {inc : Double} (hi : inc.mag < INF) :
    (mul (ofNat 0) inc).mag = 0 := by
  rw [mul_ofNat_finite (by norm_num) hi, ofNat_zero]
  show roundMag (units 0 * units inc.mag) ONE = 0
  rw [units_zero, Nat.zero_mul, roundMag_zero ONE ONE_pos]

end Double

/-! ## Properties of the structured grid -/

namespace Structured

variable {D : Type}

/-- The sum of per-latitude counts that are all at least one is not negative. -/
theorem sum_nonneg_of_all_pos (pl : List Int) (h : pl.all (fun p => decide (1 ≤ p)) = true) :
    0 ≤ pl.sum := by
  apply List.sum_nonneg
  intro x hx
  have := (List.all_eq_true.mp h) x hx
  simp at this
  omega

/-- The spec-modelled `setup` succeeds on every input that passes its check. -/
theorem setup_ok_of_inputOk (boundsOk : D → D → Bool) (increment : D → D → Int → D)
    (g0 : Structured D) (nlat : Nat) (lats : List D) (pl : List Int) (lonmin lonmax : List D)
    (h : setupInputOk boundsOk nlat lats pl lonmin lonmax = true) :
    ∃ g, setup boundsOk increment g0 nlat lats pl lonmin lonmax = .ok g := by
  simp [setup, h]

/-- Three lists of `n` entries zip into a list of `n` entries. -/
theorem length_zipWith3_eq {α β γ δ : Type} (f : α → β → γ → δ) (n : Nat) :
    ∀ (l1 : List α) (l2 : List β) (l3 : List γ), l1.length = n → l2.length = n → l3.length = n →
      (List.zipWith3 f l1 l2 l3).length = n := by
  induction n with
  | zero =>
    intro l1 l2 l3 h1 _ _
    cases l1 with
    | nil => rfl
    | cons a as => cases h1
  | succ k ih =>
    intro l1 l2 l3 h1 h2 h3
    cases l1 with
    | nil => cases h1
    | cons a as =>
      cases l2 with
      | nil => cases h2
      | cons b bs =>
        cases l3 with
        | nil => cases h3
        | cons c cs =>
          simp only [List.length_cons, Nat.succ.injEq] at h1 h2 h3
          simp only [List.zipWith3, List.length_cons, ih as bs cs h1 h2 h3]

/-- A grid frozen by the spec-modelled `setup` has `nlat()` entries in each of its vectors. -/
theorem setup_sized (boundsOk : D → D → Bool) (increment : D → D → Int → D)
    (g0 g : Structured D) (nlat : Nat) (lats : List D) (pl : List Int) (lonmin lonmax : List D)
    (h : setup boundsOk increment g0 nlat lats pl lonmin lonmax = .ok g) : g.Sized := by
  unfold setup at h
  split at h
  · rename_i hok
    injection h with h
    subst h
    simp only [setupInputOk, Bool.and_eq_true, decide_eq_true_eq] at hok
    obtain ⟨⟨⟨⟨⟨h1, h2⟩, h3⟩, h4⟩, -⟩, -⟩ := hok
    refine ⟨?_, ?_, ?_, ?_⟩
    · simp only [Structured.nlat, h1, h2]
    · simp only [Structured.nlat, h1, h3]
    · simp only [Structured.nlat, h1, h4]
    · simp only [Structured.nlat, h1]
      exact length_zipWith3_eq increment nlat lonmin lonmax pl h3 h4 h2
  · cases h

/-- Claim C2.  A grid frozen by `setup` has `npts()` equal to the sum of `pl()` and as many
entries in `pl()` as `nlat()`. -/
theorem setup_npts_eq_sum_pl (boundsOk : D → D → Bool) (increment : D → D → Int → D)
    (g0 g : Structured D) (nlat : Nat) (lats : List D) (pl : List Int) (lonmin lonmax : List D)
    (h : setup boundsOk increment g0 nlat lats pl lonmin lonmax = .ok g) :
    (g.npts : Int) = g.pl.sum ∧ g.pl.length = g.nlat := by
  unfold setup at h
  split at h
  · rename_i hok
    injection h with h
    subst h
    simp only [setupInputOk, Bool.and_eq_true, decide_eq_true_eq] at hok
    obtain ⟨⟨⟨⟨⟨h1, h2⟩, -⟩, -⟩, h5⟩, -⟩ := hok
    refine ⟨?_, ?_⟩
    · simp only [npts, Structured.pl]
      exact Int.toNat_of_nonneg (sum_nonneg_of_all_pos pl h5)
    · simp only [Structured.pl, Structured.nlat, h1, h2]
  · cases h

/-- Claim C2 on the spec's scenario: `setup` with `pl = [2, 4, 4, 2]` freezes a grid of twelve
points in four bands. -/
theorem setup_npts_eq_sum_pl_witness :
    setup (fun a b => decide (a ≤ b)) (fun a b p => (b - a) / ((p : ℚ) - 1)) blankGrid 4
        [60, 20, -20, -60] [2, 4, 4, 2] [0, 0, 0, 0] [180, 270, 270, 180] = .ok reducedGrid ∧
      (reducedGrid.npts : Int) = reducedGrid.pl.sum ∧ reducedGrid.pl.length = reducedGrid.nlat ∧
      reducedGrid.npts = 12 ∧ reducedGrid.nlat = 4 := by
  have h : setup (fun a b => decide (a ≤ b)) (fun a b p => (b - a) / ((p : ℚ) - 1)) blankGrid 4
      [60, 20, -20, -60] [2, 4, 4, 2] [0, 0, 0, 0] [180, 270, 270, 180] = .ok reducedGrid := by
    simp [setup, setupInputOk, blankGrid, reducedGrid, List.zipWith3, List.min?, List.max?]
    norm_num
  exact ⟨h, (setup_npts_eq_sum_pl _ _ _ _ _ _ _ _ _ h).1, (setup_npts_eq_sum_pl _ _ _ _ _ _ _ _ _ h).2,
    rfl, rfl⟩

/-- In a grid whose vectors all have `nlat()` entries, an in-range latitude index finds an entry
in `lat_`, `lonmin_` and `lon_inc_`. -/
theorem entries_of_sized (g : Structured D) (jlat : Nat) (hs : g.Sized) (hj : jlat < g.nlat) :
    ∃ y lonmin lon_inc, g.lat_[jlat]? = some y ∧ g.lonmin_[jlat]? = some lonmin ∧
      g.lon_inc_[jlat]? = some lon_inc := by
  obtain ⟨-, h2, -, h4⟩ := hs
  have hj0 : jlat < g.lat_.length := hj
  have hj2 : jlat < g.lonmin_.length := by rw [h2]; exact hj
  have hj4 : jlat < g.lon_inc_.length := by rw [h4]; exact hj
  exact ⟨g.lat_[jlat], g.lonmin_[jlat], g.lon_inc_[jlat], List.getElem?_eq_getElem hj0,
    List.getElem?_eq_getElem hj2, List.getElem?_eq_getElem hj4⟩

/-- In double arithmetic `lon` is the sum and the product of the model. -/
theorem lon_double (g : Structured Double) (jlat jlon : Nat) (lonmin lon_inc : Double)
    (hmin : g.lonmin_[jlat]? = some lonmin) (hinc : g.lon_inc_[jlat]? = some lon_inc) :
    g.lon jlat jlon = some (Double.add lonmin (Double.mul (Double.ofNat jlon) lon_inc)) := by
  simp only [lon, hmin, hinc]
  rfl

/-- The spec-modelled `setup`, run in double arithmetic with strict bounds and evenly spaced
points, freezes `poleGrid`. -/
theorem setup_poleGrid :
    setup strictBounds evenIncrement blankDoubleGrid 2 [Double.ofInt 90, Double.ofInt (-90)]
      [1, 1] [Double.ofNat 0, Double.ofNat 0] [Double.ofNat 360, Double.ofNat 360]
      = .ok poleGrid := by
  unfold setup
  rw [if_pos (by decide!)]
  refine congrArg Except.ok ?_
  have h1 : List.zipWith3 evenIncrement [Double.ofNat 0, Double.ofNat 0]
      [Double.ofNat 360, Double.ofNat 360] [1, 1]
      = [⟨false, Double.INF⟩, ⟨false, Double.INF⟩] := by decide!
  rw [h1]
  rfl

/-- Claim C4 as stated fails in the arithmetic of the code.  `poleGrid` is frozen by `setup`, its
band 0 has one point (so `jlon = 0` is in range), `lonmin_[0]` is `0` and the increment is
infinite; `lon(0, 0) = 0 + 0 * inf` is a NaN, which is not `lonmin_[0]` and does not compare
equal to it. -/
theorem lon_zero_ne_lonmin_poleGrid :
    setup strictBounds evenIncrement blankDoubleGrid 2 [Double.ofInt 90, Double.ofInt (-90)]
        [1, 1] [Double.ofNat 0, Double.ofNat 0] [Double.ofNat 360, Double.ofNat 360]
        = .ok poleGrid ∧
      poleGrid.pl_[0]? = some 1 ∧
      poleGrid.lonmin_[0]? = some (Double.ofNat 0) ∧
      poleGrid.lon_inc_[0]? = some ⟨false, Double.INF⟩ ∧
      (∃ x, poleGrid.lon 0 0 = some x ∧ x.isNaN = true ∧ x ≠ Double.ofNat 0 ∧
        Double.eq x (Double.ofNat 0) = false) ∧
      ¬ (∀ (g : Structured Double) (jlat : Nat) (p : Int) (lonmin x : Double), g.Sized →
          jlat < g.nlat → g.pl_[jlat]? = some p → 0 < p → g.lonmin_[jlat]? = some lonmin →
          g.lon jlat 0 = some x → Double.eq x lonmin = true) := by
  have h0 : poleGrid.lon 0 0 = some Double.nan := by decide!
  refine ⟨setup_poleGrid, rfl, rfl, rfl, ⟨_, h0, by decide!, by decide!, by decide!⟩, ?_⟩
  intro h
  have heq := h poleGrid 0 1 _ _ (by decide) (by decide) rfl (by decide) rfl h0
  revert heq
  decide!

/-- Claim C4, amended.  In a grid whose vectors all have `nlat()` entries, for `jlat < nlat()` and
every `jlon` (in particular every `jlon < pl[jlat]`), `lon(jlat, jlon)` is the expression
`lonmin_[jlat] + double(jlon) * lon_inc_[jlat]` in whatever arithmetic stands for `double`, and a
grid with the same `lonmin_` and `lon_inc_` gives the same `lon` whatever its other members are.
In double arithmetic `lon(jlat, 0)` compares equal to `lonmin_[jlat]` when `lon_inc_[jlat]` is
finite and `lonmin_[jlat]` is not a NaN. -/
theorem lon_eq_lonmin_add_mul_inc [Add D] [Mul D] [NatCast D] (g : Structured D)
    (jlat jlon : Nat) (hs : g.Sized) (hj : jlat < g.nlat) :
    (∃ lonmin lon_inc, g.lonmin_[jlat]? = some lonmin ∧ g.lon_inc_[jlat]? = some lon_inc ∧
      g.lon jlat jlon = some (lonmin + (jlon : D) * lon_inc) ∧
      ∀ g2 : Structured D, g2.lonmin_ = g.lonmin_ → g2.lon_inc_ = g.lon_inc_ →
        g2.lon jlat jlon = g.lon jlat jlon) ∧
    (∀ (gd : Structured Double) (jd : Nat), gd.Sized → jd < gd.nlat →
      ∃ lonmin lon_inc x, gd.lonmin_[jd]? = some lonmin ∧ gd.lon_inc_[jd]? = some lon_inc ∧
        gd.lon jd 0 = some x ∧
        (lon_inc.isFinite = true → lonmin.isNaN = false → Double.eq x lonmin = true)) := by
  constructor
  · obtain ⟨-, lonmin, lon_inc, -, hmin, hi⟩ := entries_of_sized g jlat hs hj
    refine ⟨lonmin, lon_inc, hmin, hi, ?_, ?_⟩
    · simp [lon, hmin, hi]
    · intro g2 h1 h2
      simp [lon, h1, h2]
  · intro gd jd hsd hjd
    obtain ⟨-, lonmin, lon_inc, -, hmin, hi⟩ := entries_of_sized gd jd hsd hjd
    refine ⟨lonmin, lon_inc, _, hmin, hi, lon_double gd jd 0 lonmin lon_inc hmin hi, ?_⟩
    intro hfin hnan
    have fi : lon_inc.mag < Double.INF := by simpa [Double.isFinite] using hfin
    have fm : lonmin.mag ≤ Double.INF := by simpa [Double.isNaN] using hnan
    exact Double.add_zero_eq fm (Double.mul_ofNat_zero_mag fi)

/-- Claim C4, amended, on band 1 of `degreeGrid` (doubles, whole degrees): `lon(1, 3)` is
`0 + 3 * 90 = 270`, and `lon(1, 0)` is `lonmin_[1] = 0`. -/
theorem lon_eq_lonmin_add_mul_inc_witness :
    degreeGrid.lon 1 3 = some (Double.ofNat 270) ∧ degreeGrid.lon 1 0 = some (Double.ofNat 0) ∧
      (∃ lonmin lon_inc, degreeGrid.lonmin_[1]? = some lonmin ∧
        degreeGrid.lon_inc_[1]? = some lon_inc ∧
        degreeGrid.lon 1 3 = some (lonmin + ((3 : Nat) : Double) * lon_inc) ∧
        ∀ g2 : Structured Double, g2.lonmin_ = degreeGrid.lonmin_ →
          g2.lon_inc_ = degreeGrid.lon_inc_ → g2.lon 1 3 = degreeGrid.lon 1 3) ∧
      ∃ lonmin lon_inc x, degreeGrid.lonmin_[1]? = some lonmin ∧
        degreeGrid.lon_inc_[1]? = some lon_inc ∧ degreeGrid.lon 1 0 = some x ∧
        (lon_inc.isFinite = true → lonmin.isNaN = false → Double.eq x lonmin = true) :=
  ⟨by decide!, by decide!,
    (lon_eq_lonmin_add_mul_inc degreeGrid 1 3 (by decide) (by decide)).1,
    (lon_eq_lonmin_add_mul_inc degreeGrid 1 3 (by decide) (by decide)).2
      degreeGrid 1 (by decide) (by decide)⟩

/-- Claim C5.  `reduced()` is `nlonmax() != nlonmin()`; hence, when the stored `nlonmin_` and
`nlonmax_` are the least and the greatest entry of a non-empty `pl_`, `reduced()` is false if all
entries of `pl_` are equal and true if two of them differ. -/
theorem reduced_eq_nlonmax_ne_nlonmin (g : Structured D) :
    g.reduced = (g.nlonmax != g.nlonmin) ∧
    (g.reduced = true ↔ g.nlonmax ≠ g.nlonmin) ∧
    (g.pl.min? = some (g.nlonmin : Int) → g.pl.max? = some (g.nlonmax : Int) →
      ((∀ p ∈ g.pl, ∀ q ∈ g.pl, p = q) → g.reduced = false) ∧
      ((∃ p ∈ g.pl, ∃ q ∈ g.pl, p ≠ q) → g.reduced = true)) := by
  refine ⟨rfl, by simp [reduced], ?_⟩
  intro hmin hmax
  haveI : Std.Antisymm (fun (x1 x2 : Int) => x1 ≤ x2) := ⟨fun h1 h2 => Int.le_antisymm h1 h2⟩
  rw [List.min?_eq_some_iff (fun a => le_refl a) (fun a b => min_choice a b)
    (fun a b c => le_min_iff)] at hmin
  rw [List.max?_eq_some_iff (fun a => le_refl a) (fun a b => max_choice a b)
    (fun a b c => max_le_iff)] at hmax
  obtain ⟨hmin_mem, hmin_le⟩ := hmin
  obtain ⟨hmax_mem, hmax_le⟩ := hmax
  constructor
  · intro hall
    have := hall _ hmax_mem _ hmin_mem
    have h2 : g.nlonmax = g.nlonmin := by exact_mod_cast this
    simp [reduced, h2]
  · rintro ⟨p, hp, q, hq, hpq⟩
    have hne : g.nlonmax ≠ g.nlonmin := by
      intro heq
      have h1 := hmin_le p hp
      have h2 := hmax_le p hp
      have h3 := hmin_le q hq
      have h4 := hmax_le q hq
      have h5 : (g.nlonmax : Int) = (g.nlonmin : Int) := by exact_mod_cast heq
      apply hpq
      omega
    simp [reduced, hne]

/-- Claim C5 on a regular and on a reduced grid: `regularGrid` (`pl = [4, 4, 4, 4]`) is not
reduced, `reducedGrid` (`pl = [2, 4, 4, 2]`) is. -/
theorem reduced_eq_nlonmax_ne_nlonmin_witness :
    regularGrid.reduced = false ∧ reducedGrid.reduced = true :=
  ⟨((reduced_eq_nlonmax_ne_nlonmin regularGrid).2.2 (by decide) (by decide)).1
      (by decide),
   ((reduced_eq_nlonmax_ne_nlonmin reducedGrid).2.2 (by decide) (by decide)).2
      ⟨2, by decide, 4, by decide, by decide⟩⟩

/-- Claim C9.  In a grid whose vectors all have `nlat()` entries, for `jlat < nlat()`, every
`jlon` and an array `crd` of at least two cells, `lonlat(jlat, jlon, crd)` leaves
`lon(jlat, jlon)` in `crd[0]` and `lat(jlat) = latitudes()[jlat]` in `crd[1]` (longitude first,
latitude second), touches no other cell, and the latitude it stores is the same for every
`jlon`. -/
theorem lonlat_eq_lon_lat [Add D] [Mul D] [NatCast D] (g : Structured D) (jlat jlon : Nat)
    (crd : List D) (hs : g.Sized) (hj : jlat < g.nlat) (hc : 2 ≤ crd.length) :
    ∃ x y out, g.lon jlat jlon = some x ∧ g.lat jlat = some y ∧ g.latitudes[jlat]? = some y ∧
      g.lonlat jlat jlon crd = some out ∧ out[0]? = some x ∧ out[1]? = some y ∧
      (∀ i, 2 ≤ i → out[i]? = crd[i]?) ∧
      ∀ jlon2 out2, g.lonlat jlat jlon2 crd = some out2 → out2[1]? = some y := by
  obtain ⟨y, lonmin, lon_inc, hlat, hmin, hi⟩ := entries_of_sized g jlat hs hj
  have h0 : 0 < crd.length := by omega
  have h1 : 1 < crd.length := by omega
  have hl : ∀ j, g.lonlat jlat j crd
      = some ((crd.set 0 (lonmin + (j : D) * lon_inc)).set 1 y) := by
    intro j
    simp [lonlat, lon, lat, store, hlat, hmin, hi, h0, h1]
  refine ⟨lonmin + (jlon : D) * lon_inc, y, _, ?_, hlat, hlat, hl jlon, ?_, ?_, ?_, ?_⟩
  · simp [lon, hmin, hi]
  · simp [List.getElem?_set, h0]
  · simp [List.getElem?_set, h1]
  · intro i hi2
    have e1 : ¬ (1 = i) := by omega
    have e0 : ¬ (0 = i) := by omega
    simp [List.getElem?_set, e1, e0]
  · intro jlon2 out2 h2
    rw [hl jlon2] at h2
    injection h2 with h2
    subst h2
    simp [List.getElem?_set, h1]

/-- Claim C9 on band 1 of `reducedGrid`: `lonlat(1, 3, crd)` stores `(270, 20)`. -/
theorem lonlat_eq_lon_lat_witness :
    ∃ x y out, reducedGrid.lon 1 3 = some x ∧ reducedGrid.lat 1 = some y ∧
      reducedGrid.latitudes[1]? = some y ∧
      reducedGrid.lonlat 1 3 [0, 0] = some out ∧ out[0]? = some x ∧ out[1]? = some y ∧
      (∀ i, 2 ≤ i → out[i]? = ([0, 0] : List ℚ)[i]?) ∧
      ∀ jlon2 out2, reducedGrid.lonlat 1 jlon2 [0, 0] = some out2 → out2[1]? = some y :=
  lonlat_eq_lon_lat reducedGrid 1 3 [0, 0] ⟨rfl, rfl, rfl, rfl⟩ (by decide) (by decide)

end Structured

/-! ## Properties of the partitioner factory -/

namespace PartitionerFactory

variable {G P : Type}

/-- The lookup finds nothing exactly when no registered factory carries the key. -/
theorem find_eq_none_iff (registry : List (PartitionerFactory G P)) (name : String) :
    find registry name = none ↔ ∀ f ∈ registry, f.name_ ≠ name := by
  simp [find, List.find?_eq_none]

/-- With pairwise distinct keys, the lookup of a registered factory's key finds that factory. -/
theorem find_eq_some_of_mem (registry : List (PartitionerFactory G P))
    (f : PartitionerFactory G P) (hf : f ∈ registry)
    (hnodup : (registry.map fun x => x.name_).Nodup) : find registry f.name_ = some f := by
  induction registry with
  | nil => cases hf
  | cons x xs ih =>
    rw [List.map_cons, List.nodup_cons] at hnodup
    obtain ⟨hx, hxs⟩ := hnodup
    rcases List.mem_cons.mp hf with rfl | hmem
    · simp [find]
    · have hne : x.name_ ≠ f.name_ := by
        intro heq
        exact hx (heq ▸ List.mem_map_of_mem (fun x => x.name_) hmem)
      have := ih hmem hxs
      simp only [find] at this ⊢
      rw [List.find?_cons_of_neg _ (by simpa using hne)]
      exact this

/-- Claim C8.  For a key under which no factory is registered, `has` is false and both `build`
overloads fail with the error carrying that key.  For a key under which a factory is registered
(keys being unique), `has` is true and `build` returns what that factory's `make` returns for
exactly the supplied grid (and partition count); when the factory is a `PartitionerBuilder<T>`,
that is `new T(grid)` and `new T(grid, nb_partitions)`. -/
theorem build_by_key (registry : List (PartitionerFactory G P)) (name : String) (grid : G)
    (nb_partitions : Nat) :
    ((∀ f ∈ registry, f.name_ ≠ name) →
      has registry name = false ∧
      build registry name grid = .error (.unknown_partitioner name) ∧
      build_nb registry name grid nb_partitions = .error (.unknown_partitioner name)) ∧
    (∀ f ∈ registry, f.name_ = name → (registry.map fun x => x.name_).Nodup →
      has registry name = true ∧
      build registry name grid = .ok (f.make grid) ∧
      build_nb registry name grid nb_partitions = .ok (f.make_nb grid nb_partitions)) ∧
    (∀ T : PartitionerClass G P, PartitionerBuilder T name ∈ registry →
      (registry.map fun x => x.name_).Nodup →
      build registry name grid = .ok (T.ctor grid) ∧
      build_nb registry name grid nb_partitions = .ok (T.ctor_nb grid nb_partitions)) := by
  have key : ∀ f ∈ registry, f.name_ = name → (registry.map fun x => x.name_).Nodup →
      has registry name = true ∧
      build registry name grid = .ok (f.make grid) ∧
      build_nb registry name grid nb_partitions = .ok (f.make_nb grid nb_partitions) := by
    intro f hf hname hnodup
    have h := find_eq_some_of_mem registry f hf hnodup
    rw [hname] at h
    simp [has, build, build_nb, h]
  refine ⟨?_, key, ?_⟩
  · intro hnone
    have h := (find_eq_none_iff registry name).mpr hnone
    simp [has, build, build_nb, h]
  · intro T hT hnodup
    exact (key _ hT rfl hnodup).2

/-- Claim C8 on a registry of two builders: the key `nonexistent` is unknown, `has` is false and
building fails naming it; the key `bands` builds through its own builder from the supplied grid
and partition count. -/
theorem build_by_key_witness :
    has twoBuilders "nonexistent" = false ∧
    build twoBuilders "nonexistent" reducedGrid = .error (.unknown_partitioner "nonexistent") ∧
    build_nb twoBuilders "nonexistent" reducedGrid 3 = .error (.unknown_partitioner "nonexistent") ∧
    build twoBuilders "bands" reducedGrid = .ok ⟨1, reducedGrid⟩ ∧
    build_nb twoBuilders "bands" reducedGrid 3 = .ok ⟨3, reducedGrid⟩ :=
  ⟨((build_by_key twoBuilders "nonexistent" reducedGrid 3).1
      (by simp [twoBuilders, PartitionerBuilder])).1,
   ((build_by_key twoBuilders "nonexistent" reducedGrid 3).1
      (by simp [twoBuilders, PartitionerBuilder])).2.1,
   ((build_by_key twoBuilders "nonexistent" reducedGrid 3).1
      (by simp [twoBuilders, PartitionerBuilder])).2.2,
   ((build_by_key twoBuilders "bands" reducedGrid 3).2.2 (storingClass 1)
      (by simp [twoBuilders]) (by simp [twoBuilders, PartitionerBuilder])).1,
   ((build_by_key twoBuilders "bands" reducedGrid 3).2.2 (storingClass 1)
      (by simp [twoBuilders]) (by simp [twoBuilders, PartitionerBuilder])).2⟩

end PartitionerFactory

end atlas
